import Mathlib

/-!
# Verification of the AI-EMPLOYEE task-orchestration engine

This file shallowly embeds the core of the `Hackathon-0` repository
(claim lock, queue manager, orchestration controller, persistent
execution loop, approval dispatcher) in Lean 4 and settles the frozen
claims about it.

Modelling conventions:

* The filesystem is the single shared mutable resource of the system.
  It is modelled as a record `FS` holding the list of existing file
  paths (vault-relative strings) plus the append-only activity-log
  entries.  `os.rename`, `os.open(O_CREAT|O_EXCL)` and `unlink` become
  pure list operations.
* Python strings are Lean `String`s; only `\n` line endings occur in
  the embedded documents (the repository writes its own files that
  way).  Python truthiness of an optional string (`None` or `""` are
  falsy) is `pyFalsy`.
* Blocking retry loops whose outcome cannot change in a sequential
  run (the lock-acquisition retry loop) are collapsed to their
  sequential fixpoint; genuinely state-changing loops (the Ralph
  execution loop, the send-retry loop) are embedded step by step with
  an explicit fuel argument standing for the while-loop, which is
  irrelevant on every terminating run considered here.
-/

namespace AIEmployee

/-! ## String utilities

Helpers mirroring the Python string primitives used by the sources
(`str.strip`, `str.lower`, substring membership, `startswith`).  They
are defined on `List Char` and wrapped for `String`. -/

/-- Python `\s` for the ASCII whitespace actually present in the
repository's documents. -/
def isWs (c : Char) : Bool :=
  c = ' ' || c = '\t' || c = '\n' || c = '\r'

def trimLeftL (cs : List Char) : List Char := cs.dropWhile isWs

def trimRightL (cs : List Char) : List Char :=
  (cs.reverse.dropWhile isWs).reverse

def trimL (cs : List Char) : List Char := trimRightL (trimLeftL cs)

/-- Python `str.strip()`. -/
def pyStrip (s : String) : String := ⟨trimL s.data⟩

/-- Python `str.lstrip()` / the `^\s*` regex prefix. -/
def pyLStrip (s : String) : String := ⟨trimLeftL s.data⟩

def listIsPrefix : List Char → List Char → Bool
  | [], _ => true
  | _ :: _, [] => false
  | p :: ps, c :: cs => p = c && listIsPrefix ps cs

/-- `needle` occurs somewhere in `hay` (Python `needle in hay`). -/
def listContains (hay needle : List Char) : Bool :=
  match hay with
  | [] => listIsPrefix needle []
  | _ :: rest => listIsPrefix needle hay || listContains rest needle

def strStartsWith (s pre : String) : Bool := listIsPrefix pre.data s.data

def strContains (hay needle : String) : Bool := listContains hay.data needle.data

/-- Python `str.lower()` (ASCII). -/
def pyLower (s : String) : String := ⟨s.data.map Char.toLower⟩

/-- Python `int(str)` for the plain-digit values the drafts carry
(signs, underscores and non-ASCII digits are not exercised here). -/
def pyToNat (s : String) : Option Nat :=
  if s.data ≠ [] ∧ s.data.all Char.isDigit then
    some (s.data.foldl (fun n c => n * 10 + (c.toNat - '0'.toNat)) 0)
  else none

/-- Last `/`-separated component of a path (Python `Path.name`). -/
def baseName (p : String) : String :=
  ⟨((p.data.reverse.takeWhile (· ≠ '/')).reverse)⟩

/-- Directory part of a path (Python `Path.parent` for the resolved
absolute path strings used here). -/
def parentOf (p : String) : String :=
  ⟨(p.data.reverse.dropWhile (· ≠ '/')).reverse.dropLast⟩

/-- Python `Path.stem`: the final component without its last suffix;
a leading dot does not start a suffix. -/
def stemOf (name : String) : String :=
  let cs := name.data
  let ext := cs.reverse.takeWhile (· ≠ '.')
  if ext.length + 1 ≤ cs.length && ext.length + 1 ≠ cs.length then
    ⟨cs.take (cs.length - ext.length - 1)⟩
  else name

/-- Python `Path.suffix` (with the dot), empty for extension-less or
dot-leading names. -/
def suffixOf (name : String) : String :=
  let cs := name.data
  let ext := cs.reverse.takeWhile (· ≠ '.')
  if ext.length + 1 ≤ cs.length && ext.length + 1 ≠ cs.length then
    ⟨'.' :: ext.reverse⟩
  else ""

/-! ## Filesystem model

`FS.files` is the list of existing regular files (vault-relative path
strings); `FS.log` is the sequence of activity-log lines ever appended
(the per-day log files of `VaultManager.log_activity`, abstracted to
their messages, newest first). -/

structure FS where
  files : List String
  log : List String
deriving DecidableEq, Repr

/-- `os.rename` / exclusive create: add a path (no duplicate entry). -/
def FS.create (fs : FS) (p : String) : FS :=
  if p ∈ fs.files then fs else { fs with files := p :: fs.files }

/-- `unlink` / the source half of a rename: drop a path. -/
def FS.remove (fs : FS) (p : String) : FS :=
  { fs with files := fs.files.erase p }

/-- Atomic `Path.rename`: the file disappears at `src` and appears at
`dst`. -/
def FS.rename (fs : FS) (src dst : String) : FS :=
  (fs.remove src).create dst

/-- `VaultManager.log_activity`: append one entry; never mutates or
deletes earlier entries. -/
def FS.logActivity (fs : FS) (msg : String) : FS :=
  { fs with log := msg :: fs.log }

/-! ## `src/utils/file_lock.py`

`FileLock` keeps a sidecar `<task>.lock` path
(`file_path.with_suffix(file_path.suffix + '.lock')`, i.e. the task
path with `.lock` appended) and an `acquired` flag. -/

/-- State of one `FileLock` instance: its fixed sidecar path and the
`acquired` flag. -/
structure FileLockSt where
  lockPath : String
  acquired : Bool
deriving DecidableEq, Repr

/-- `FileLock(file_path)`: the sidecar path appends `.lock` to the
task path and the lock starts unacquired. -/
def FileLock.mkFor (taskPath : String) : FileLockSt :=
  { lockPath := taskPath ++ ".lock", acquired := false }

/-- `FileLock.acquire`.  The source loops on `os.open(O_CREAT|O_EXCL)`
with a 0.1s sleep until `timeout`; in a sequential run no concurrent
release can intervene, so the loop's outcome is decided by the first
attempt (which is always made): exclusive create succeeds iff the lock
file is absent. -/
def FileLock.acquire (fs : FS) (l : FileLockSt) : Bool × FS × FileLockSt :=
  if l.lockPath ∈ fs.files then
    (false, fs, l)
  else
    (true, fs.create l.lockPath, { l with acquired := true })

/-- `FileLock.release`: unlink the lock file only when `acquired`;
`FileNotFoundError` (the file was removed externally) is swallowed —
and in that branch the source does *not* reset `self.acquired`. -/
def FileLock.release (fs : FS) (l : FileLockSt) : FS × FileLockSt :=
  if l.acquired then
    if l.lockPath ∈ fs.files then
      (fs.remove l.lockPath, { l with acquired := false })
    else
      (fs, l)
  else
    (fs, l)

/-- `claim_task(task_file, agent_name, in_progress_dir)`: acquire the
sidecar lock, re-check the task still exists, rename it into
`in_progress_dir/agent_name/`, release the lock in a `finally`
block, and return the new path; `None` when the lock was already held
or the task vanished. -/
def claim_task (fs : FS) (taskPath agentName inProgressDir : String) :
    Option String × FS :=
  let l := FileLock.mkFor taskPath
  match FileLock.acquire fs l with
  | (false, fsAcq, _) => (none, fsAcq)
  | (true, fsAcq, lAcq) =>
    if taskPath ∈ fsAcq.files then
      let newPath := inProgressDir ++ "/" ++ agentName ++ "/" ++ baseName taskPath
      let fsMoved := fsAcq.rename taskPath newPath
      let (fsFin, _) := FileLock.release fsMoved lAcq
      (some newPath, fsFin)
    else
      let (fsMoved, _) := FileLock.release fsAcq lAcq
      (none, fsMoved)

/-- The sidecar lock path differs from the task path (it is longer). -/
theorem lockPath_ne_task (task : String) : task ++ ".lock" ≠ task := by
  intro h
  have hlen := congrArg String.length h
  simp [String.length_append] at hlen
  exact absurd hlen (by decide)

/-- **C3.** `claim_task(task, agent_id, destination_root)` acquires the
sidecar lock, re-checks that the task file still exists, moves it to
`destination_root/agent_id/<task name>`, releases the lock, and returns the
new path; it returns `none` if the lock could not be acquired or the task
file no longer exists; and whenever the lock was acquired, the lock file is
removed before `claim_task` returns, on both the success and the failure
path. -/
theorem claim_task_contract (fs : FS) (task agent dir : String)
    (hnodup : fs.files.Nodup) :
    (task ++ ".lock" ∈ fs.files → claim_task fs task agent dir = (none, fs)) ∧
    (task ++ ".lock" ∉ fs.files → task ∉ fs.files →
      claim_task fs task agent dir = (none, fs)) ∧
    (task ++ ".lock" ∉ fs.files → task ∈ fs.files →
      dir ++ "/" ++ agent ++ "/" ++ baseName task ≠ task ++ ".lock" →
      dir ++ "/" ++ agent ++ "/" ++ baseName task ≠ task →
      (claim_task fs task agent dir).1
          = some (dir ++ "/" ++ agent ++ "/" ++ baseName task) ∧
      dir ++ "/" ++ agent ++ "/" ++ baseName task
          ∈ (claim_task fs task agent dir).2.files ∧
      task ++ ".lock" ∉ (claim_task fs task agent dir).2.files ∧
      task ∉ (claim_task fs task agent dir).2.files) := by
  refine ⟨?_, ?_, ?_⟩
  · intro hlock
    simp [claim_task, FileLock.mkFor, FileLock.acquire, hlock]
  · intro hlock htask
    have h2 : task ≠ task ++ ".lock" := fun h => lockPath_ne_task task h.symm
    simp [claim_task, FileLock.mkFor, FileLock.acquire, hlock, FS.create,
      htask, h2, FileLock.release, FS.remove]
  · intro hlock htask hne1 hne2
    have hlt : task ++ ".lock" ≠ task := lockPath_ne_task task
    have htaskE : task ∉ fs.files.erase task := by
      intro h
      exact absurd ((hnodup.mem_erase_iff).mp h).1 (by simp)
    have hlockE : task ++ ".lock" ∉ fs.files.erase task := by
      intro h
      exact hlock (List.mem_of_mem_erase h)
    have herase1 : (fs.files.map id).erase task = fs.files.erase task := by
      simp
    have hstep1 : ((task ++ ".lock") :: fs.files).erase task
        = (task ++ ".lock") :: fs.files.erase task :=
      List.erase_cons_tail (by simp [hlt])
    by_cases hmem :
        (dir ++ "/" ++ agent ++ "/" ++ baseName task)
          ∈ (task ++ ".lock") :: (fs.files.erase task)
    · have hnpE : dir ++ "/" ++ agent ++ "/" ++ baseName task
          ∈ fs.files.erase task := by
        rcases List.mem_cons.mp hmem with h | h
        · exact absurd h hne1
        · exact h
      have hcomp : claim_task fs task agent dir
          = (some (dir ++ "/" ++ agent ++ "/" ++ baseName task),
             ⟨fs.files.erase task, fs.log⟩) := by
        simp [claim_task, FileLock.mkFor, FileLock.acquire, hlock, FS.create,
          htask, FS.rename, FS.remove, hstep1, hmem, FileLock.release]
      refine ⟨by rw [hcomp], by rw [hcomp]; exact hnpE,
        by rw [hcomp]; exact hlockE, by rw [hcomp]; exact htaskE⟩
    · have hcomp : claim_task fs task agent dir
          = (some (dir ++ "/" ++ agent ++ "/" ++ baseName task),
             ⟨(dir ++ "/" ++ agent ++ "/" ++ baseName task)
                :: fs.files.erase task, fs.log⟩) := by
        have he2 : ((dir ++ "/" ++ agent ++ "/" ++ baseName task)
              :: (task ++ ".lock") :: fs.files.erase task).erase
                (task ++ ".lock")
            = (dir ++ "/" ++ agent ++ "/" ++ baseName task)
              :: fs.files.erase task := by
          rw [List.erase_cons_tail (by simp [hne1]), List.erase_cons_head]
        simp [claim_task, FileLock.mkFor, FileLock.acquire, hlock, FS.create,
          htask, FS.rename, FS.remove, hstep1, hmem, FileLock.release, he2]
      refine ⟨by rw [hcomp], by rw [hcomp]; exact List.mem_cons_self _ _,
        ?_, ?_⟩
      · rw [hcomp]
        simp only [List.mem_cons]
        rintro (h | h)
        · exact hne1 h.symm
        · exact hlockE h
      · rw [hcomp]
        simp only [List.mem_cons]
        rintro (h | h)
        · exact hne2 h.symm
        · exact htaskE h

/-- Witness for `claim_task_contract` at a concrete state: one task file,
no lock held. -/
theorem claim_task_contract_witness :
    (claim_task ⟨["t.md"], []⟩ "t.md" "orchestrator" "In_Progress").1
        = some "In_Progress/orchestrator/t.md" ∧
    "t.md.lock" ∉ (claim_task ⟨["t.md"], []⟩ "t.md" "orchestrator"
        "In_Progress").2.files :=
  have h := (claim_task_contract ⟨["t.md"], []⟩ "t.md" "orchestrator"
      "In_Progress" (by decide)).2.2 (by decide) (by decide) (by decide)
      (by decide)
  ⟨h.1, h.2.2.1⟩

/-- **C10, counterexample.**  The claim says a `FileLock` instance never
deletes a lock file it does not hold and that calling `release()` twice is
a harmless no-op even when the lock file was already removed externally.
Concrete trace refuting it: instance A acquires; the lock file is removed
externally; A's first `release()` hits `FileNotFoundError` and — because
the source resets `self.acquired` only after a successful `unlink` — keeps
`acquired = true`; instance B then acquires (recreating the lock file);
A's second `release()` unlinks B's lock file. -/
theorem fileLock_release_foreign_unlink_cex :
    -- A acquires on the empty filesystem
    (FileLock.acquire ⟨[], []⟩ (FileLock.mkFor "t.md")).1 = true ∧
    -- after external removal, A's first release keeps `acquired = true`
    ((FileLock.release
        ((FileLock.acquire ⟨[], []⟩ (FileLock.mkFor "t.md")).2.1.remove
          "t.md.lock")
        (FileLock.acquire ⟨[], []⟩ (FileLock.mkFor "t.md")).2.2).2.acquired
      = true) ∧
    -- B acquires again: the lock file exists and is held by B ...
    "t.md.lock" ∈ (FileLock.acquire
        (FileLock.release
          ((FileLock.acquire ⟨[], []⟩ (FileLock.mkFor "t.md")).2.1.remove
            "t.md.lock")
          (FileLock.acquire ⟨[], []⟩ (FileLock.mkFor "t.md")).2.2).1
        (FileLock.mkFor "t.md")).2.1.files ∧
    -- ... yet A's second release deletes B's lock file: not a no-op
    "t.md.lock" ∉ (FileLock.release
        (FileLock.acquire
          (FileLock.release
            ((FileLock.acquire ⟨[], []⟩ (FileLock.mkFor "t.md")).2.1.remove
              "t.md.lock")
            (FileLock.acquire ⟨[], []⟩ (FileLock.mkFor "t.md")).2.2).1
          (FileLock.mkFor "t.md")).2.1
        (FileLock.release
          ((FileLock.acquire ⟨[], []⟩ (FileLock.mkFor "t.md")).2.1.remove
            "t.md.lock")
          (FileLock.acquire ⟨[], []⟩ (FileLock.mkFor "t.md")).2.2).2).1.files
    := by decide

/-- **C10, amended.**  `release()` unlinks the lock file only when this
instance's `acquire()` succeeded and the flag is still set; a release
without a prior successful acquire is a no-op, and after a release that
actually unlinked the file, further releases are no-ops.  However, when
the lock file was already removed externally, `release()` returns without
clearing `acquired`, so a later `release()` on the same instance can
unlink a lock file it does not hold. -/
theorem fileLock_release_amended (fs : FS) (l : FileLockSt) :
    (l.acquired = false → FileLock.release fs l = (fs, l)) ∧
    (l.acquired = true → l.lockPath ∈ fs.files →
      (FileLock.release fs l).2.acquired = false ∧
      (fs.files.Nodup → l.lockPath ∉ (FileLock.release fs l).1.files) ∧
      (FileLock.release (FileLock.release fs l).1 (FileLock.release fs l).2
        = FileLock.release fs l)) ∧
    (l.acquired = true → l.lockPath ∉ fs.files →
      FileLock.release fs l = (fs, l) ∧
      (FileLock.release fs l).2.acquired = true) := by
  refine ⟨?_, ?_, ?_⟩
  · intro h
    simp [FileLock.release, h]
  · intro hacq hmem
    refine ⟨by simp [FileLock.release, hacq, hmem], ?_, ?_⟩
    · intro hnodup
      simp only [FileLock.release, hacq, hmem, if_true, FS.remove]
      exact fun h => absurd ((hnodup.mem_erase_iff).mp h).1 (by simp)
    · simp [FileLock.release, hacq, hmem]
  · intro hacq hmem
    simp [FileLock.release, hacq, hmem]

/-- Witness for `fileLock_release_amended`: held lock over a singleton
filesystem is actually unlinked and the instance deactivated. -/
theorem fileLock_release_amended_witness :
    (FileLock.release ⟨["a.lock"], []⟩ ⟨"a.lock", true⟩).2.acquired
      = false ∧
    "a.lock" ∉ (FileLock.release ⟨["a.lock"], []⟩ ⟨"a.lock", true⟩).1.files :=
  have h := (fileLock_release_amended ⟨["a.lock"], []⟩
      ⟨"a.lock", true⟩).2.1 (by decide) (by decide)
  ⟨h.1, h.2.1 (by decide)⟩

/-! ## `src/vault/manager.py` — path validation

`VaultManager._validate_path` resolves the argument and the vault root
(an OS primitive; the embedding therefore takes the already-resolved
absolute path strings) and then tests
`str(resolved).startswith(str(vault_resolved))`; on failure it raises
`ValueError` ("Security error: ...").  `write_file` validates the path
and its parent, creates the parent directory and writes; a `ValueError`
is caught and turned into `False` with no I/O performed.  The embedding
tracks file existence, not contents. -/

/-- `VaultManager._validate_path`, applied to resolved path strings:
`true` means the check passes (the path is returned), `false` means
`ValueError` is raised. -/
def validate_path (vaultResolved resolved : String) : Bool :=
  strStartsWith resolved vaultResolved

/-- The spec's containment property, stated in the spec's words: the
resolved path is the storage root itself or lies strictly inside it
(below a path-separator boundary).  Used to compare the code's check
against the spec's intent. -/
def insideStorageRoot (vaultResolved resolved : String) : Bool :=
  resolved = vaultResolved || strStartsWith resolved (vaultResolved ++ "/")

/-- `VaultManager.write_file`: validate the path, validate its parent,
then perform the write; a validation failure is caught and reported as
`False` with the filesystem untouched. -/
def write_file (vaultResolved : String) (fs : FS) (path : String) :
    Bool × FS :=
  if validate_path vaultResolved path then
    if validate_path vaultResolved (parentOf path) then
      (true, fs.create path)
    else (false, fs)
  else (false, fs)

/-- Paths rejected by `_validate_path` never reach the I/O in
`write_file`. -/
theorem write_file_rejects_unvalidated (vault : String) (fs : FS)
    (p : String) (h : validate_path vault p = false) :
    write_file vault fs p = (false, fs) := by
  simp [write_file, h]

/-- **C2.**  The spec claims every path resolving outside the storage root
raises a security error before any I/O.  The code's check is a raw string
`startswith` without a separator boundary, so a sibling directory whose
name extends the vault root's name passes validation and is written
through: with storage root `/data/vault`, the outside path
`/data/vault_evil/x.md` passes `_validate_path` and `write_file` performs
the write. -/
theorem validate_path_prefix_hole_cex :
    validate_path "/data/vault" "/data/vault_evil/x.md" = true ∧
    insideStorageRoot "/data/vault" "/data/vault_evil/x.md" = false ∧
    (write_file "/data/vault" ⟨[], []⟩ "/data/vault_evil/x.md").1 = true ∧
    "/data/vault_evil/x.md"
      ∈ (write_file "/data/vault" ⟨[], []⟩ "/data/vault_evil/x.md").2.files
    := by decide

/-! ## `src/ralph/loop_manager.py` — the persistent execution loop

`RalphLoopManager.execute_with_persistence` drives the external
reasoning worker (`subprocess.run` on the selected AI CLI).  The worker
is modelled as a function from the invocation index to the subprocess
outcome; command-line assembly, environment scrubbing and stdin wiring
only shape that invocation and carry no further state.  Paths are
vault-relative (the task file lives at `In_Progress/<agent>/<name>`).
The Python `while` loop is embedded with explicit fuel; a recursion
step consumes one fuel unit both for a normal `iteration += 1` pass and
for a rate-limit `continue` (the source can in fact loop forever
switching between two rate-limited fallback CLIs, so a fuel-free total
embedding does not exist). -/

inductive WorkerOutcome
  /-- `subprocess.run` returned with this exit code and stdout. -/
  | ret (returncode : Int) (out : String)
  /-- `subprocess.TimeoutExpired` (the 900 s timeout). -/
  | timeoutExpired
  /-- any other `subprocess.SubprocessError`. -/
  | subprocessErr (msg : String)
deriving DecidableEq, Repr

/-- Configuration of one `execute_with_persistence` call: constructor
arguments of `RalphLoopManager` plus the environment facts the loop
reads (`vault_path.exists()/is_absolute()`, `shutil.which` results for
the fallback CLIs) and the prompt, which the controller builds as a
large non-empty template (`_create_claude_prompt`) whose content enters
the loop's control flow only through emptiness and length. -/
structure LoopCfg where
  maxIterations : Nat
  prompt : String
  vaultExists : Bool
  vaultAbsolute : Bool
  geminiPath : Option String
  qwenPath : Option String
deriving DecidableEq, Repr

/-- Which of the ordered completion checks ended the loop; the source
distinguishes them only in its log messages. -/
inductive CompletionReason
  | marker | movedToDone | movedAway | pendingApproval | trustSuccess
deriving DecidableEq, Repr

inductive LoopOutcome
  /-- the loop returned `result.stdout`. -/
  | completed (reason : CompletionReason) (out : String)
  /-- an exception propagated to the caller. -/
  | raised (msg : String)
  /-- modelling artifact: while-loop fuel ran out. -/
  | fuelExhausted
deriving DecidableEq, Repr

def completionMarker : String := "<promise>TASK_COMPLETE</promise>"

/-- `RalphLoopManager._is_task_complete` on the stdout string. -/
def is_task_complete (out : String) : Bool :=
  strContains out completionMarker

/-- The rate-limit detection on a failed run's stdout:
`"hit your limit" in result.stdout.lower() or "rate limit" in
result.stdout.lower()`. -/
def rateLimitSignature (out : String) : Bool :=
  strContains (pyLower out) "hit your limit"
    || strContains (pyLower out) "rate limit"

/-- `p` is a direct child of folder `dir` (used for `iterdir`/`glob`
on a stage folder). -/
def inFolder (dir p : String) : Bool := dir ++ "/" ++ baseName p = p

/-- `RalphLoopManager._is_task_complete_in_vault`: the task file is
gone from its `In_Progress` location and present in `Done`. -/
def is_task_complete_in_vault (fs : FS) : Option String → Bool
  | none => false
  | some p =>
    if p ∈ fs.files then false
    else decide (("Done/" ++ baseName p) ∈ fs.files)

/-- `task_file and not task_file.exists()`. -/
def taskGone (fs : FS) : Option String → Bool
  | none => false
  | some p => !(decide (p ∈ fs.files))

/-- `task_file and any(pending.glob(f"*{task_file.stem}*"))`: some file
directly under `Pending_Approval` has the task's stem in its name. -/
def taskPendingHit (fs : FS) : Option String → Bool
  | none => false
  | some p =>
    fs.files.any fun q =>
      inFolder "Pending_Approval" q
        && strContains (baseName q) (stemOf (baseName p))

/-- The `if task_file: ... if task_file.exists(): move_file(task_file,
failed_dir)` fragment shared by the loop's failure paths
(`VaultManager.move_file` validates the vault-relative paths — which
always pass for the loop's own paths — and renames). -/
def moveTaskToFailed (fs : FS) : Option String → FS
  | none => fs
  | some p =>
    if p ∈ fs.files then fs.rename p ("Failed/" ++ baseName p) else fs

/-- The code after the `while` loop: log the failure, move the task to
`Failed`, raise to the caller. -/
def ralphExit (fs : FS) (task : Option String) (invocations : Nat) :
    LoopOutcome × FS × Nat :=
  (.raised "Ralph loop failed: max iterations exceeded",
   moveTaskToFailed (fs.logActivity "Ralph loop max iterations exceeded")
     task,
   invocations)

/-- Fallback CLI selection inside the rate-limit branch: gemini if
present and different from the current CLI, else qwen likewise, else
none (log only, fall through). -/
def fallbackCli (cfg : LoopCfg) (cli : String) : Option String :=
  match cfg.geminiPath with
  | some g =>
    if g ≠ cli then some g
    else match cfg.qwenPath with
      | some q => if q ≠ cli then some q else none
      | none => none
  | none =>
    match cfg.qwenPath with
    | some q => if q ≠ cli then some q else none
    | none => none

/-- The `while iteration < self.max_iterations` body of
`execute_with_persistence`, with explicit fuel for termination.
Arguments after the fuel: current `iteration`, number of worker
invocations made so far, current `self.ai_cli_path`, filesystem, and
the optional `task_file`.  Returns the outcome, the final filesystem
and the total invocation count. -/
def ralphLoop (cfg : LoopCfg) (worker : Nat → WorkerOutcome) :
    Nat → Nat → Nat → String → FS → Option String → LoopOutcome × FS × Nat
  | 0, iteration, invocations, _cli, fs, task =>
    if iteration < cfg.maxIterations then (.fuelExhausted, fs, invocations)
    else ralphExit fs task invocations
  | fuel + 1, iteration, invocations, cli, fs, task =>
    if iteration < cfg.maxIterations then
      -- input validation: hard preconditions, never retried
      if cfg.vaultExists = false then
        (.raised "ValueError: vault path does not exist", fs, invocations)
      else if cfg.vaultAbsolute = false then
        (.raised "ValueError: vault path must be absolute", fs, invocations)
      else if pyStrip cfg.prompt = "" then
        (.raised "ValueError: prompt cannot be empty", fs, invocations)
      else if cfg.prompt.length > 1000000 then
        (.raised "ValueError: prompt too large", fs, invocations)
      else
        match worker invocations with
        | .ret rc out =>
          if rc = 0 then
            -- ordered completion detection; every branch returns stdout
            if is_task_complete out then
              (.completed .marker out, fs, invocations + 1)
            else if is_task_complete_in_vault fs task then
              (.completed .movedToDone out, fs, invocations + 1)
            else if taskGone fs task then
              (.completed .movedAway out, fs, invocations + 1)
            else if taskPendingHit fs task then
              (.completed .pendingApproval out, fs, invocations + 1)
            else
              -- returncode 0 but no completion detected: trust success
              (.completed .trustSuccess out, fs, invocations + 1)
          else
            if rateLimitSignature out then
              match fallbackCli cfg cli with
              | some newCli =>
                -- `continue`: retry the same iteration on the new CLI
                ralphLoop cfg worker fuel iteration (invocations + 1)
                  newCli fs task
              | none =>
                -- no fallback available: fall through to the next iteration
                ralphLoop cfg worker fuel (iteration + 1) (invocations + 1)
                  cli fs task
            else
              ralphLoop cfg worker fuel (iteration + 1) (invocations + 1)
                cli fs task
        | .timeoutExpired =>
          -- non-retryable: log, move to Failed, raise
          let fs1 := (fs.logActivity "Ralph loop timeout")
          (.raised "AI CLI timed out after 900s",
           moveTaskToFailed fs1 task, invocations + 1)
        | .subprocessErr _ =>
          let fs1 := fs.logActivity "Ralph loop subprocess error"
          if iteration ≥ cfg.maxIterations - 1 then
            (.raised "Subprocess error after max iterations",
             moveTaskToFailed fs1 task, invocations + 1)
          else
            ralphLoop cfg worker fuel (iteration + 1) (invocations + 1)
              cli fs1 task
    else ralphExit fs task invocations

/-- `RalphLoopManager.execute_with_persistence`: raises `RuntimeError`
up front when no AI CLI was found at construction, otherwise runs the
loop from iteration 0. -/
def execute_with_persistence (cfg : LoopCfg) (worker : Nat → WorkerOutcome)
    (aiCli : Option String) (fuel : Nat) (fs : FS) (task : Option String) :
    LoopOutcome × FS × Nat :=
  match aiCli with
  | none => (.raised "No AI CLI available", fs, 0)
  | some cli => ralphLoop cfg worker fuel 0 0 cli fs task

theorem FS.mem_create_self (fs : FS) (p : String) : p ∈ (fs.create p).files := by
  by_cases h : p ∈ fs.files <;> simp [FS.create, h]

theorem FS.create_log (fs : FS) (p : String) : (fs.create p).log = fs.log := by
  by_cases h : p ∈ fs.files <;> simp [FS.create, h]

/-- On a run where every worker invocation fails with a non-zero exit and
no rate-limit signature, the loop walks through the remaining iterations
without touching the vault and ends in the post-loop failure code. -/
theorem ralphLoop_all_failures (cfg : LoopCfg) (worker : Nat → WorkerOutcome)
    (cli t : String)
    (hv : cfg.vaultExists = true) (ha : cfg.vaultAbsolute = true)
    (hp1 : ¬ pyStrip cfg.prompt = "") (hp2 : ¬ cfg.prompt.length > 1000000)
    (hw : ∀ k, ∃ rc out, worker k = .ret rc out ∧ rc ≠ 0 ∧
        rateLimitSignature out = false) :
    ∀ n fuel iteration invocations fs,
      iteration + n = cfg.maxIterations → n ≤ fuel →
      ralphLoop cfg worker fuel iteration invocations cli fs (some t)
        = ralphExit fs (some t) (invocations + n) := by
  intro n
  induction n with
  | zero =>
    intro fuel iteration invocations fs hsum hfuel
    have hge : ¬ iteration < cfg.maxIterations := by omega
    cases fuel with
    | zero => simp [ralphLoop, hge]
    | succ f => simp [ralphLoop, hge]
  | succ n ih =>
    intro fuel iteration invocations fs hsum hfuel
    have hlt : iteration < cfg.maxIterations := by omega
    cases fuel with
    | zero => omega
    | succ f =>
      obtain ⟨rc, out, hwk, hrc, hrl⟩ := hw invocations
      have hstep :
          ralphLoop cfg worker (f + 1) iteration invocations cli fs (some t)
            = ralphLoop cfg worker f (iteration + 1) (invocations + 1) cli
                fs (some t) := by
        simp [ralphLoop, hlt, hv, ha, hp1, hp2, hwk, hrc, hrl]
      rw [hstep, ih f (iteration + 1) (invocations + 1) fs (by omega)
        (by omega)]
      have harith : invocations + 1 + n = invocations + (n + 1) := by omega
      rw [harith]

/-- **C4.**  With a worker that never signals completion — every invocation
returns a non-zero exit without a rate-limit signature — and the task file
never moving, the Execution Loop terminates after exactly `max_iterations`
worker invocations; at that point the task file is moved to `Failed`, an
activity-log entry is written, and an error is raised to the caller. -/
theorem ralph_max_iteration_exhaustion (cfg : LoopCfg)
    (worker : Nat → WorkerOutcome) (cli t : String) (fuel : Nat) (fs : FS)
    (hv : cfg.vaultExists = true) (ha : cfg.vaultAbsolute = true)
    (hp1 : ¬ pyStrip cfg.prompt = "") (hp2 : ¬ cfg.prompt.length > 1000000)
    (hw : ∀ k, ∃ rc out, worker k = .ret rc out ∧ rc ≠ 0 ∧
        rateLimitSignature out = false)
    (hfuel : cfg.maxIterations ≤ fuel) (ht : t ∈ fs.files) :
    execute_with_persistence cfg worker (some cli) fuel fs (some t)
      = (.raised "Ralph loop failed: max iterations exceeded",
         (fs.logActivity "Ralph loop max iterations exceeded").rename t
           ("Failed/" ++ baseName t),
         cfg.maxIterations) ∧
    ("Failed/" ++ baseName t)
      ∈ (execute_with_persistence cfg worker (some cli) fuel fs
          (some t)).2.1.files ∧
    "Ralph loop max iterations exceeded"
      ∈ (execute_with_persistence cfg worker (some cli) fuel fs
          (some t)).2.1.log := by
  have hrun : execute_with_persistence cfg worker (some cli) fuel fs (some t)
      = ralphExit fs (some t) (0 + cfg.maxIterations) :=
    ralphLoop_all_failures cfg worker cli t hv ha hp1 hp2 hw
      cfg.maxIterations fuel 0 0 fs (by omega) hfuel
  have htL : t ∈ (fs.logActivity "Ralph loop max iterations exceeded").files :=
    ht
  have hexit : ralphExit fs (some t) (0 + cfg.maxIterations)
      = (.raised "Ralph loop failed: max iterations exceeded",
         (fs.logActivity "Ralph loop max iterations exceeded").rename t
           ("Failed/" ++ baseName t),
         cfg.maxIterations) := by
    simp [ralphExit, moveTaskToFailed, htL]
  refine ⟨by rw [hrun, hexit], ?_, ?_⟩
  · rw [hrun, hexit]
    exact FS.mem_create_self _ _
  · rw [hrun, hexit]
    have : ((fs.logActivity "Ralph loop max iterations exceeded").rename t
        ("Failed/" ++ baseName t)).log
        = "Ralph loop max iterations exceeded" :: fs.log := by
      simp [FS.rename, FS.remove, FS.create_log, FS.logActivity]
    rw [this]
    exact List.mem_cons_self _ _

/-- Witness for `ralph_max_iteration_exhaustion`: two iterations of a
worker that always exits 1, on a vault holding the claimed task. -/
theorem ralph_max_iteration_exhaustion_witness :
    execute_with_persistence
        ⟨2, "p", true, true, none, none⟩ (fun _ => .ret 1 "boom")
        (some "claude") 2 ⟨["In_Progress/orchestrator/t.md"], []⟩
        (some "In_Progress/orchestrator/t.md")
      = (.raised "Ralph loop failed: max iterations exceeded",
         (FS.logActivity ⟨["In_Progress/orchestrator/t.md"], []⟩
             "Ralph loop max iterations exceeded").rename
           "In_Progress/orchestrator/t.md" ("Failed/" ++ baseName
             "In_Progress/orchestrator/t.md"),
         2) :=
  (ralph_max_iteration_exhaustion ⟨2, "p", true, true, none, none⟩
    (fun _ => .ret 1 "boom") "claude" "In_Progress/orchestrator/t.md" 2
    ⟨["In_Progress/orchestrator/t.md"], []⟩ (by decide) (by decide)
    (by decide) (by decide)
    (fun _ => ⟨1, "boom", rfl, by decide, by decide⟩)
    (by decide) (by decide)).1

/-- **C5.**  When the worker invocation exits with code 0, the loop
returns successfully within that same iteration even with no completion
marker, the task file untouched in `In_Progress` and no `PendingApproval`
entry: exactly one worker invocation, the vault unchanged, the "trust
success" default taken. -/
theorem ralph_trust_success (cfg : LoopCfg) (worker : Nat → WorkerOutcome)
    (cli t out : String) (fuel : Nat) (fs : FS)
    (hv : cfg.vaultExists = true) (ha : cfg.vaultAbsolute = true)
    (hp1 : ¬ pyStrip cfg.prompt = "") (hp2 : ¬ cfg.prompt.length > 1000000)
    (hmi : 0 < cfg.maxIterations)
    (hw : worker 0 = .ret 0 out)
    (hmk : is_task_complete out = false)
    (ht : t ∈ fs.files)
    (hpend : taskPendingHit fs (some t) = false) :
    execute_with_persistence cfg worker (some cli) (fuel + 1) fs (some t)
      = (.completed .trustSuccess out, fs, 1) := by
  have hvault : is_task_complete_in_vault fs (some t) = false := by
    simp [is_task_complete_in_vault, ht]
  have hgone : taskGone fs (some t) = false := by
    simp [taskGone, ht]
  simp [execute_with_persistence, ralphLoop, hmi, hv, ha, hp1, hp2, hw,
    hmk, hvault, hgone, hpend]

/-- Witness for `ralph_trust_success`: a worker that exits 0 with no
marker completes after one iteration instead of `max_iterations = 10`. -/
theorem ralph_trust_success_witness :
    execute_with_persistence ⟨10, "p", true, true, none, none⟩
        (fun _ => .ret 0 "did things") (some "claude") 10
        ⟨["In_Progress/orchestrator/t.md"], []⟩
        (some "In_Progress/orchestrator/t.md")
      = (.completed .trustSuccess "did things",
         ⟨["In_Progress/orchestrator/t.md"], []⟩, 1) :=
  ralph_trust_success ⟨10, "p", true, true, none, none⟩
    (fun _ => .ret 0 "did things") "claude" "In_Progress/orchestrator/t.md"
    "did things" 9 ⟨["In_Progress/orchestrator/t.md"], []⟩
    (by decide) (by decide) (by decide) (by decide) (by decide) rfl
    (by decide) (by decide) (by decide)

/-! ## `src/orchestrator/controller.py`

`OrchestratorController.process_task` reads the task and the context
documents (pure reads), builds the Claude prompt (a pure string
template, carried here as `cfg.prompt`), logs an activity entry and
delegates to the Execution Loop; its `except Exception` handler only
calls `logger.error` — it performs no vault operation.
`start_monitoring` sets `self.running`, logs, and immediately enters
the polling loop: list `Needs_Action`, claim each discovered file with
`claim_task(…, "orchestrator", directories['in_progress'])`, and
process each claimed task. -/

/-- `OrchestratorController.process_task`: returns the final filesystem
and whether an exception was caught (and merely logged) by its handler. -/
def process_task (cfg : LoopCfg) (worker : Nat → WorkerOutcome)
    (aiCli : Option String) (fuel : Nat) (fs : FS) (taskPath : String) :
    FS × Bool :=
  let fs1 := fs.logActivity "Orchestrator triggered Claude for task"
  match execute_with_persistence cfg worker aiCli fuel fs1 (some taskPath) with
  | (.raised _, fs2, _) => (fs2, true)
  | (.completed _ _, fs2, _) => (fs2, false)
  | (.fuelExhausted, fs2, _) => (fs2, false)

/-- One pass of the polling loop in
`OrchestratorController.start_monitoring`: list the files directly in
`Needs_Action`, try to claim each, and process the claimed ones. -/
def poll_cycle (cfg : LoopCfg) (worker : Nat → WorkerOutcome)
    (aiCli : Option String) (fuel : Nat) (fs : FS) : FS :=
  let tasks := fs.files.filter (fun p => inFolder "Needs_Action" p)
  tasks.foldl
    (fun acc taskPath =>
      match claim_task acc taskPath "orchestrator" "In_Progress" with
      | (some newPath, accNew) =>
        (process_task cfg worker aiCli fuel accNew newPath).1
      | (none, accNew) => accNew)
    fs

/-- Everything `start_monitoring` executes before its polling loop:
`self.running = True` and a logger call (controller.py lines 30–31) —
no vault access of any kind. -/
def start_monitoring_prelude (fs : FS) : FS := fs

/-- The controller's state as first observable after start: the prelude
followed by the first polling pass. -/
def start_monitoring_first_cycle (cfg : LoopCfg)
    (worker : Nat → WorkerOutcome) (aiCli : Option String) (fuel : Nat)
    (fs : FS) : FS :=
  poll_cycle cfg worker aiCli fuel (start_monitoring_prelude fs)

/-- **C1, counterexample.**  The claim says every task file under
`InProgress/<agent>` is moved back to `Intake` before polling begins, so
a task placed in `In_Progress/orchestrator` before controller start is
found in `Intake` immediately after start.  In the code,
`start_monitoring` contains no such recovery step: starting the
controller on a vault whose only file is
`In_Progress/orchestrator/t.md` (empty intake) leaves the vault
untouched — the task is still in `In_Progress` and `Needs_Action` stays
empty even after a full polling pass. -/
theorem controller_no_startup_recovery_cex :
    start_monitoring_prelude ⟨["In_Progress/orchestrator/t.md"], []⟩
      = ⟨["In_Progress/orchestrator/t.md"], []⟩ ∧
    (start_monitoring_first_cycle ⟨2, "p", true, true, none, none⟩
        (fun _ => .ret 0 "ok") (some "claude") 2
        ⟨["In_Progress/orchestrator/t.md"], []⟩).files
      = ["In_Progress/orchestrator/t.md"] ∧
    "Needs_Action/t.md"
      ∉ (start_monitoring_first_cycle ⟨2, "p", true, true, none, none⟩
          (fun _ => .ret 0 "ok") (some "claude") 2
          ⟨["In_Progress/orchestrator/t.md"], []⟩).files := by
  decide

/-- **C1, amended.**  The controller performs no startup crash recovery:
the code before the polling loop does not touch the vault, and with an
empty intake queue the first polling pass leaves the filesystem exactly
as it was — a task already in `InProgress/<agent>` stays there and never
reappears in `Intake`. -/
theorem controller_no_startup_recovery (cfg : LoopCfg)
    (worker : Nat → WorkerOutcome) (aiCli : Option String) (fuel : Nat)
    (fs : FS) :
    start_monitoring_prelude fs = fs ∧
    (fs.files.filter (fun p => inFolder "Needs_Action" p) = [] →
      start_monitoring_first_cycle cfg worker aiCli fuel fs = fs) := by
  refine ⟨rfl, fun h => ?_⟩
  simp [start_monitoring_first_cycle, poll_cycle, start_monitoring_prelude, h]

/-- Witness for `controller_no_startup_recovery`: a vault whose only file
sits in `In_Progress/orchestrator` is untouched by controller start. -/
theorem controller_no_startup_recovery_witness :
    start_monitoring_first_cycle ⟨2, "p", true, true, none, none⟩
        (fun _ => .ret 0 "ok") (some "claude") 2
        ⟨["In_Progress/orchestrator/task42.md"], []⟩
      = ⟨["In_Progress/orchestrator/task42.md"], []⟩ :=
  (controller_no_startup_recovery ⟨2, "p", true, true, none, none⟩
      (fun _ => .ret 0 "ok") (some "claude") 2
      ⟨["In_Progress/orchestrator/task42.md"], []⟩).2 (by decide)

/-- **C6, counterexample.**  The claim says that on any exception during
`process(task)` the Controller moves the task to `Failed`.  Concrete
refutation: with no AI CLI available, `execute_with_persistence` raises
`RuntimeError` before any worker invocation, `process_task`'s handler
only logs — the task file stays in `In_Progress` and nothing appears in
`Failed`. -/
theorem process_task_no_failed_move_cex :
    (process_task ⟨2, "p", true, true, none, none⟩ (fun _ => .ret 0 "ok")
        none 2 ⟨["In_Progress/orchestrator/t.md"], []⟩
        "In_Progress/orchestrator/t.md").2 = true ∧
    "Failed/t.md"
      ∉ (process_task ⟨2, "p", true, true, none, none⟩
          (fun _ => .ret 0 "ok") none 2
          ⟨["In_Progress/orchestrator/t.md"], []⟩
          "In_Progress/orchestrator/t.md").1.files ∧
    "In_Progress/orchestrator/t.md"
      ∈ (process_task ⟨2, "p", true, true, none, none⟩
          (fun _ => .ret 0 "ok") none 2
          ⟨["In_Progress/orchestrator/t.md"], []⟩
          "In_Progress/orchestrator/t.md").1.files := by
  decide

/-- **C6, amended.**  `process_task`'s exception handler performs no vault
operation of its own: the final filesystem is exactly whatever the
Execution Loop left behind (the loop itself moves the task to `Failed`
on timeout, on subprocess-error exhaustion and on max-iteration
exhaustion); in particular, when the exception is raised before any
worker invocation — no AI CLI available — the task file is not moved at
all. -/
theorem process_task_exception_handling (cfg : LoopCfg)
    (worker : Nat → WorkerOutcome) (fuel : Nat) (fs : FS) (t : String) :
    (process_task cfg worker none fuel fs t).2 = true ∧
    (process_task cfg worker none fuel fs t).1.files = fs.files ∧
    (∀ aiCli,
      (process_task cfg worker aiCli fuel fs t).1
        = (execute_with_persistence cfg worker aiCli fuel
            (fs.logActivity "Orchestrator triggered Claude for task")
            (some t)).2.1) := by
  refine ⟨?_, ?_, ?_⟩
  · simp [process_task, execute_with_persistence]
  · simp [process_task, execute_with_persistence, FS.logActivity]
  · intro aiCli
    unfold process_task
    rcases hout : execute_with_persistence cfg worker aiCli fuel
        (fs.logActivity "Orchestrator triggered Claude for task")
        (some t) with ⟨outcome, fs2, n⟩
    cases outcome <;> simp [hout]

/-! ## `src/watchers/approved_email_sender.py` — draft parsing

`parse_draft` works on the draft text: it strips the content, splits an
optional `--- ... ---` front-matter block (regex
`^---\s*\n(.*?)\n---\s*\n(.*)`, DOTALL), scans the front-matter lines
for `key: value` pairs, scans the first 40 body lines for plain or
bold `To:`/`Subject:`/`Task_id:`/`Action:` headers, takes the rest as
the body (stopping at `## To Approve`/`## To Reject`, dropping a
leading `## Email Body` header), and validates the per-channel
required fields.  The embedding works line-wise over `\n`-separated
text; Python truthiness of optional strings is `pyFalsy`.  The
`attachments:` YAML sub-parse (delegated to `yaml.safe_load`, feeding
only the e-mail attachment list) is outside the claims and not
modelled. -/

/-- Split a character list at every `\n` (the accumulator holds the
current line reversed). -/
def splitNlAux : List Char → List Char → List String
  | acc, [] => [⟨acc.reverse⟩]
  | acc, '\n' :: rest => (⟨acc.reverse⟩ : String) :: splitNlAux [] rest
  | acc, c :: rest => splitNlAux (c :: acc) rest

/-- `s.split("\n")`. -/
def splitNl (s : String) : List String := splitNlAux [] s.data

/-- Python `str.splitlines()` for `\n`-separated text: a trailing
newline terminates the last line instead of opening an empty one. -/
def pySplitlines (s : String) : List String :=
  if s = "" then []
  else
    let parts := splitNl s
    if parts.getLast? = some "" then parts.dropLast else parts

def isBlankLine (l : String) : Bool := l.data.all isWs

/-- `content.strip()` at line granularity: leading and trailing
whitespace-only lines vanish and the outer ends of the first and last
remaining lines are trimmed. -/
def stripLines (ls : List String) : List String :=
  let a := ls.dropWhile isBlankLine
  let a := match a with
    | [] => []
    | h :: t => pyLStrip h :: t
  let b := a.reverse.dropWhile isBlankLine
  let b := match b with
    | [] => []
    | h :: t => (⟨trimRightL h.data⟩ : String) :: t
  b.reverse

/-- A front-matter delimiter line: `---` followed by only whitespace
(the regex fragment `---\s*` up to the line's newline). -/
def isDelim (l : String) : Bool :=
  strStartsWith l "---" && (l.data.drop 3).all isWs

/-- Earliest delimiter line that still has a line after it (the regex
needs `\n` after the closing `---\s*`; the stripped content has no
trailing newline). -/
def findCloseTail : List String → Option Nat
  | [] => none
  | [_] => none
  | l :: rest => if isDelim l then some 0 else (findCloseTail rest).map (· + 1)

/-- Index of the closing `---` delimiter among the lines after the
opening one.  The pattern `\n(.*?)\n---` needs two newlines between the
opening and closing `---`, so the line directly after the opening can
never close the block (it belongs to the front-matter text even when it
is itself `---`). -/
def findClose : List String → Option Nat
  | [] => none
  | _ :: rest => (findCloseTail rest).map (· + 1)

/-- Split off the front-matter block: `some (fmLines, afterLines)` when
the frontmatter regex matches the stripped content. -/
def splitFrontmatter (ls : List String) : Option (List String × List String) :=
  match ls with
  | [] => none
  | l0 :: rest =>
    if isDelim l0 then
      match findClose rest with
      | some j => some (rest.take j, rest.drop (j + 1))
      | none => none
    else none

/-- Python truthiness of an optional string: `None` and `""` are falsy. -/
def pyFalsy : Option String → Bool
  | none => true
  | some s => s = ""

/-- Python truthiness of the optional `invoice_id` int. -/
def pyFalsyNat : Option Nat → Bool
  | none => true
  | some n => n = 0

/-- Field accumulator of `parse_draft`'s scans. -/
structure FmFields where
  toAddr : Option String := none
  subject : Option String := none
  task_id : Option String := none
  action : Option String := none
  thread_id : Option String := none
  in_reply_to : Option String := none
  platform : Option String := none
  invoice_id : Option Nat := none
deriving DecidableEq, Repr

/-- The `\s*:\s*(.+)` tail of the key-line regexes: after optional
whitespace a colon must follow, and the match needs at least one
character after the colon; the captured value is stripped. -/
def colonValue (rest : String) : Option String :=
  match (pyLStrip rest).data with
  | ':' :: r2 => if r2 = [] then none else some (pyStrip ⟨r2⟩)
  | _ => none

/-- Case-insensitive keyword prefix (`re.IGNORECASE` on the ASCII
keys). -/
def ciStartsWith (s kw : String) : Bool :=
  listIsPrefix kw.data (pyLower s).data

/-- Keys of the front-matter scan regex, in alternation order. -/
def fmKeys : List String :=
  ["to", "whatsapp_to", "subject", "task_id", "action", "thread_id",
   "in_reply_to", "platform", "invoice_id"]

/-- Match one front-matter line against
`^\s*(to|whatsapp_to|subject|task_id|action|thread_id|in_reply_to|platform|invoice_id)\s*:\s*(.+)`. -/
def matchKeyLine (l : String) : Option (String × String) :=
  let t := pyLStrip l
  fmKeys.findSome? fun k =>
    if ciStartsWith t k then
      (colonValue ⟨t.data.drop k.data.length⟩).map (fun v => (k, v))
    else none

/-- One assignment round of the front-matter scan (each field keeps its
first truthy value; `whatsapp_to` feeds `to`; `invoice_id` is parsed as
an int, parse failures ignored). -/
def fmApply (f : FmFields) (k v : String) : FmFields :=
  if k = "to" ∨ k = "whatsapp_to" then
    if pyFalsy f.toAddr then { f with toAddr := some v } else f
  else if k = "subject" then
    if pyFalsy f.subject then { f with subject := some v } else f
  else if k = "task_id" then
    if pyFalsy f.task_id then { f with task_id := some v } else f
  else if k = "action" then
    if pyFalsy f.action then { f with action := some v } else f
  else if k = "thread_id" then
    if pyFalsy f.thread_id then { f with thread_id := some v } else f
  else if k = "in_reply_to" then
    if pyFalsy f.in_reply_to then { f with in_reply_to := some v } else f
  else if k = "platform" then
    if pyFalsy f.platform then { f with platform := some v } else f
  else if k = "invoice_id" then
    if pyFalsyNat f.invoice_id then
      match pyToNat v with
      | some n => { f with invoice_id := some n }
      | none => f
    else f
  else f

def fmScan (ls : List String) : FmFields :=
  ls.foldl
    (fun f l =>
      match matchKeyLine l with
      | some (k, v) => fmApply f k v
      | none => f)
    {}

/-- Keys of the body-line scan regex. -/
def starKeys : List String := ["to", "subject", "task_id", "action"]

def takeStars (cs : List Char) : Nat × List Char :=
  let stars := cs.takeWhile (· = '*')
  (stars.length, cs.drop stars.length)

/-- Match one body line against
`^\s*\*{0,2}(to|subject|task_id|action)\*{0,2}\s*:\s*(.+)`
(`re.IGNORECASE`). -/
def matchStarLine (l : String) : Option (String × String) :=
  let t := (pyLStrip l).data
  let (s1, t1) := takeStars t
  if 2 < s1 then none
  else
    starKeys.findSome? fun k =>
      if listIsPrefix k.data (t1.map Char.toLower) then
        let r := t1.drop k.data.length
        let (s2, r1) := takeStars r
        if 2 < s2 then none
        else (colonValue ⟨r1⟩).map (fun v => (k, v))
      else none

/-- Body-scan assignment: only `to`/`subject`/`task_id`/`action`, same
first-truthy-value discipline. -/
def starApply (f : FmFields) (k v : String) : FmFields :=
  if k = "to" then
    if pyFalsy f.toAddr then { f with toAddr := some v } else f
  else if k = "subject" then
    if pyFalsy f.subject then { f with subject := some v } else f
  else if k = "task_id" then
    if pyFalsy f.task_id then { f with task_id := some v } else f
  else if k = "action" then
    if pyFalsy f.action then { f with action := some v } else f
  else f

/-- The `for i, line in enumerate(body_lines[:40])` scan: assign matched
headers, advance `body_start` past them, and break once both `to` and
`subject` are set and the current index has passed `body_start`. -/
def bodyScan : List String → Nat → FmFields → Nat → FmFields × Nat
  | [], _, f, bs => (f, bs)
  | l :: rest, i, f, bs =>
    if 40 ≤ i then (f, bs)
    else
      let step :=
        match matchStarLine l with
        | some (k, v) => (starApply f k v, i + 1)
        | none => (f, bs)
      if ¬ pyFalsy step.1.toAddr ∧ ¬ pyFalsy step.1.subject ∧ step.2 < i then
        step
      else bodyScan rest (i + 1) step.1 step.2

/-- `^##\s+(To Approve|To Reject)` on one line. -/
def isApprovalHeaderLine (l : String) : Bool :=
  match l.data with
  | '#' :: '#' :: rest =>
    let ws := rest.takeWhile isWs
    0 < ws.length
      && (listIsPrefix "To Approve".data (rest.drop ws.length)
          || listIsPrefix "To Reject".data (rest.drop ws.length))
  | _ => false

/-- First line of `^##\s+Email Body\s*\n`. -/
def isEmailBodyHeaderLine (l : String) : Bool :=
  match l.data with
  | '#' :: '#' :: rest =>
    let ws := rest.takeWhile isWs
    0 < ws.length
      && listIsPrefix "Email Body".data (rest.drop ws.length)
      && ((rest.drop ws.length).drop 10).all isWs
  | _ => false

def strJoinNl (ls : List String) : String := String.intercalate "\n" ls

/-- Body assembly: everything after the header block up to an approval
instruction header, stripped, with a leading `## Email Body` header
removed (the removal regex needs the newline after the header, i.e. a
following line). -/
def extractBody (bodyLines : List String) (bs : Nat) : String :=
  let raw := bodyLines.drop bs
  let kept := raw.takeWhile (fun l => !(isApprovalHeaderLine l))
  let b := pyStrip (strJoinNl kept)
  match splitNl b with
  | l0 :: rest =>
    if rest ≠ [] ∧ isEmailBodyHeaderLine l0 then pyStrip (strJoinNl rest)
    else b
  | [] => b

/-- The parsed draft (the source returns a dict; the social branch omits
`attachments`/`invoice_id` and the e-mail branch omits `platform`, which
the single record renders as `none`). -/
structure Draft where
  toAddr : String
  subject : String
  body : String
  task_id : Option String
  action : String
  platform : Option String
  thread_id : Option String
  in_reply_to : Option String
  invoice_id : Option Nat
deriving DecidableEq, Repr

def socialActions : List String :=
  ["post_linkedin", "post_twitter", "post_facebook", "post_social_media",
   "post_social"]

/-- `x.strip() if x else None` for values that were already stripped at
capture. -/
def optOrNone : Option String → Option String
  | some s => if s = "" then none else some s
  | none => none

/-- `(action or "send_email").strip()` — the scanned values are already
stripped. -/
def effectiveAction (f : FmFields) : String :=
  match f.action with
  | some a => if a = "" then "send_email" else a
  | none => "send_email"

/-- Validation and assembly at the end of `parse_draft`: social actions
always return a dict; e-mail needs `to` and `subject`; WhatsApp (and any
other non-social action) needs `to`. -/
def mkDraft (f : FmFields) (body : String) : Option Draft :=
  let act := effectiveAction f
  if act ∈ socialActions then
    some
      { toAddr := f.toAddr.getD "", subject := f.subject.getD "", body := body,
        task_id := optOrNone f.task_id, action := act,
        platform := some
          (match f.platform with
           | some p => if p = "" then "linkedin" else p
           | none => "linkedin"),
        thread_id := optOrNone f.thread_id,
        in_reply_to := optOrNone f.in_reply_to, invoice_id := none }
  else if pyFalsy f.toAddr then none
  else if act = "send_email" ∧ pyFalsy f.subject then none
  else
    some
      { toAddr := f.toAddr.getD "", subject := f.subject.getD "", body := body,
        task_id := optOrNone f.task_id, action := act, platform := none,
        thread_id := optOrNone f.thread_id,
        in_reply_to := optOrNone f.in_reply_to,
        invoice_id := f.invoice_id }

/-- Front-matter scan plus choice of body lines (`after_front` stripped
when the front-matter matched, the raw content lines otherwise). -/
def draftFields (content : String) : FmFields × List String :=
  let ls := stripLines (pySplitlines content)
  match splitFrontmatter ls with
  | some (fm, after) => (fmScan fm, stripLines after)
  | none => ({}, pySplitlines content)

/-- The complete field scan of `parse_draft`: front-matter scan followed
by the 40-line body scan; returns the accumulated fields and the body
start index. -/
def draftScan (content : String) : FmFields × Nat :=
  let fl := draftFields content
  bodyScan fl.2 0 fl.1 0

/-- `parse_draft`. -/
def parse_draft (content : String) : Option Draft :=
  mkDraft (draftScan content).1
    (extractBody (draftFields content).2 (draftScan content).2)

/-! ### `ApprovedEmailSender._intelligent_parse`

The fallback parser: content-wide `re.search`es for `**To**:` /
`**Subject**:` (case-insensitive), a `Recipient:`/`Customer:`/`Email:`
e-mail-shaped fallback for the recipient, a fenced `**Body**:` block,
and a line-start front-matter scan for `task_id`/`action`; validation
requires a truthy recipient and subject.  The Gmail-draft-id and
invoice-id blocks only log / build attachments and are outside the
claims. -/

/-- Case-insensitive literal prefix (the pattern is given lowercase). -/
def listIsPrefixCI : List Char → List Char → Bool
  | [], _ => true
  | _ :: _, [] => false
  | p :: ps, c :: cs => p = c.toLower && listIsPrefixCI ps cs

/-- Leftmost-match `re.search`: try the matcher at every start
position. -/
def scanFirst (f : List Char → Option String) : List Char → Option String
  | [] => f []
  | c :: cs =>
    match f (c :: cs) with
    | some v => some v
    | none => scanFirst f cs

/-- The `\s*([^\n]+)` tail of the content-wide searches (`\s` may cross
newlines; the group is confined to one line), with the `.strip()` the
caller applies.  `none` means this occurrence does not match and the
search goes on. -/
def searchVal (r : List Char) : Option String :=
  let r1 := r.dropWhile isWs
  if r1 ≠ [] then some (pyStrip ⟨r1.takeWhile (· ≠ '\n')⟩)
  else if r.any (fun c => isWs c && c ≠ '\n') then some "" else none

/-- `re.search(r"\*\*<key>\*\*:\s*([^\n]+)", content, re.IGNORECASE)`. -/
def findBoldKey (key : String) (cs : List Char) : Option String :=
  let pat := "**" ++ key ++ "**:"
  scanFirst
    (fun suf =>
      if listIsPrefixCI pat.data suf then searchVal (suf.drop pat.length)
      else none)
    cs

/-- `[a-zA-Z0-9._%+-]` — the local part of the fallback e-mail regex. -/
def isAtomChar (c : Char) : Bool :=
  c.isAlpha || c.isDigit || c = '.' || c = '_' || c = '%' || c = '+'
    || c = '-'

/-- `[a-zA-Z0-9.-]` — the domain part. -/
def isDomChar (c : Char) : Bool :=
  c.isAlpha || c.isDigit || c = '.' || c = '-'

/-- Match `[a-zA-Z0-9._%+-]+@[a-zA-Z0-9.-]+\.[a-zA-Z]{2,}` at this
position: greedy runs with the backtracking choosing the latest dot
that is followed by at least two letters and preceded by at least one
domain character. -/
def emailMatch (cs : List Char) : Option String :=
  let a := cs.takeWhile isAtomChar
  if a = [] then none
  else
    match cs.drop a.length with
    | '@' :: rest =>
      let d := rest.takeWhile isDomChar
      match (List.range d.length).reverse.find?
          (fun k =>
            1 ≤ k && d.getD k ' ' = '.'
              && 2 ≤ ((d.drop (k + 1)).takeWhile Char.isAlpha).length) with
      | some k =>
        some ⟨a ++ '@' :: (d.take k ++ '.'
          :: (d.drop (k + 1)).takeWhile Char.isAlpha)⟩
      | none => none
    | _ => none

/-- `re.search(r"(?:Recipient|Customer|Email):\s*(<email>)",
content, re.IGNORECASE)`. -/
def emailSearch (cs : List Char) : Option String :=
  scanFirst
    (fun suf =>
      (["recipient:", "customer:", "email:"] : List String).findSome?
        fun k =>
          if listIsPrefixCI k.data suf then
            emailMatch ((suf.drop k.data.length).dropWhile isWs)
          else none)
    cs

/-- Earliest split of the text as `group ++ "\n```" ++ _` (the lazy
`(.*?)\n\x60\x60\x60` tail of the body-fence regex). -/
def findFenceEnd : List Char → Option (List Char)
  | [] => none
  | c :: cs =>
    if listIsPrefix ['\n', '\x60', '\x60', '\x60'] (c :: cs) then some []
    else (findFenceEnd cs).map (c :: ·)

/-- `re.search(r"\*\*Body\*\*:\s*```\s*\n(.*?)\n```", content,
re.DOTALL)` (case-sensitive), with the caller's `.strip()`. -/
def bodyFence (cs : List Char) : Option String :=
  scanFirst
    (fun suf =>
      if listIsPrefix "**Body**:".data suf then
        let r := (suf.drop 9).dropWhile isWs
        if listIsPrefix ['\x60', '\x60', '\x60'] r then
          let r2 := r.drop 3
          let w := r2.takeWhile isWs
          if w.contains '\n' then
            let afterLastNl := w.length - (w.reverse.takeWhile (· ≠ '\n')).length
            (findFenceEnd (r2.drop afterLastNl)).map (fun g => pyStrip ⟨g⟩)
          else none
        else none
      else none)
    cs

/-- Split a line at its first `:`. -/
def splitColon (l : String) : Option (String × String) :=
  if l.data.contains ':' then
    some (⟨l.data.takeWhile (· ≠ ':')⟩,
          ⟨(l.data.dropWhile (· ≠ ':')).drop 1⟩)
  else none

/-- First index at distance ≥ 1 holding a line that starts with `---`
(the closing of `^---\s*\n(.*?)\n---` cannot be the line directly after
the opening — the pattern needs two newlines — and needs no trailing
newline of its own). -/
def iCloseIdx : List String → Option Nat
  | [] => none
  | _ :: rest =>
    (rest.findIdx? (fun l => strStartsWith l "---")).map (· + 1)

/-- `re.search(r"^---\s*\n(.*?)\n---", content, re.DOTALL|re.MULTILINE)`:
the first line-start front-matter block of the raw content. -/
def iFmSearch : List String → Option (List String)
  | [] => none
  | l :: rest =>
    if isDelim l then
      match iCloseIdx rest with
      | some j => some (rest.take j)
      | none => iFmSearch rest
    else iFmSearch rest

/-- The front-matter walk of `_intelligent_parse`: split each line at
its first colon; `task_id` is overwritten on every occurrence, and
`action`/`step_id` values containing `email` normalise the action to
`send_email` (its initial value). -/
def iFmFields (ls : List String) : Option String × String :=
  match iFmSearch ls with
  | none => (none, "send_email")
  | some fm =>
    fm.foldl
      (fun st l =>
        match splitColon l with
        | some (k, v) =>
          let key := pyLower (pyStrip k)
          let val := pyStrip v
          if key = "task_id" then (some val, st.2)
          else if key = "action" ∨ key = "step_id" then
            if strContains (pyLower val) "email" then (st.1, "send_email")
            else st
          else st
        | none => st)
      (none, "send_email")

/-- Result of `_intelligent_parse` (attachment enrichment — Gmail draft
and Odoo invoice fetches — is external I/O outside the claims). -/
structure IDraft where
  toAddr : String
  subject : String
  body : Option String
  task_id : Option String
  action : String
deriving DecidableEq, Repr

/-- `ApprovedEmailSender._intelligent_parse`. -/
def intelligentParse (content : String) : Option IDraft :=
  let cs := content.data
  let fm := iFmFields (pySplitlines content)
  let toA :=
    match findBoldKey "to" cs with
    | some v => some v
    | none => emailSearch cs
  let subj := findBoldKey "subject" cs
  match toA, subj with
  | some t, some s =>
    if t = "" ∨ s = "" then none
    else some { toAddr := t, subject := s, body := bodyFence cs,
                task_id := fm.1, action := fm.2 }
  | _, _ => none

/-! ### `ApprovedEmailSender._handle_approved_file` — the parse gate

The handler reads the file, tries `parse_draft`, falls back to
`_intelligent_parse`, and when both fail moves the file to `Rejected`
with reason `parse_failed` and returns — no channel send is attempted.
On success it routes by the parsed `action` (the body text is cleaned
by `_clean_output_text` after this decision; the routing itself depends
only on the action). -/

inductive HandleResult
  /-- the file is moved to `Rejected/` with this reason and the handler
  returns without any send. -/
  | rejected (reason : String)
  /-- the handler proceeds to channel routing with these parsed
  fields. -/
  | route (action : String) (toAddr subject : String) (body : Option String)
deriving DecidableEq, Repr

/-- The parse phase of `_handle_approved_file`. -/
def handle_approved_parse (content : String) : HandleResult :=
  match parse_draft content with
  | some d => .route d.action d.toAddr d.subject (some d.body)
  | none =>
    match intelligentParse content with
    | some i => .route i.action i.toAddr i.subject i.body
    | none => .rejected "parse_failed"

/-! ## `_send_with_retry` — the channel retry policy

Each attempt builds the MIME message and calls the Gmail send; the
attempt's outcome is abstracted as a function of the 0-based attempt
index.  `HttpError` carries an HTTP status; any other exception is the
generic `except Exception` case. -/

inductive AttemptOutcome
  /-- the send succeeded with this message id. -/
  | ok (msgId : String)
  /-- `googleapiclient.errors.HttpError` with this status. -/
  | httpErr (status : Nat) (msg : String)
  /-- any other exception. -/
  | exc (msg : String)
deriving DecidableEq, Repr

/-- `_RETRYABLE = (429, 500, 502, 503, 504)`. -/
def retryableStatuses : List Nat := [429, 500, 502, 503, 504]

/-- The `for attempt in range(1, max_retries + 1)` loop.  `made` counts
attempts already made, `left` the attempts still allowed (so the
current attempt is the `made + 1`-st and `attempt < max_retries` is
`1 ≤ left` after peeling the current one); `sleeps` accumulates the
backoff waits in reverse.  Returns the `(success, reference-or-error)`
pair, the number of attempts made and the sleep sequence. -/
def sendGo (f : Nat → AttemptOutcome) :
    Nat → Nat → List Nat → Nat → (Bool × String) × Nat × List Nat
  | made, _, sleeps, 0 =>
    ((false, "MAX_RETRIES_EXCEEDED"), made, sleeps.reverse)
  | made, backoff, sleeps, left + 1 =>
    match f made with
    | .ok msgId => ((true, msgId), made + 1, sleeps.reverse)
    | .httpErr status msg =>
      if status ∈ retryableStatuses ∧ 1 ≤ left then
        sendGo f (made + 1) (min (backoff * 2) 60) (backoff :: sleeps) left
      else ((false, "GMAIL_API_ERROR: " ++ msg), made + 1, sleeps.reverse)
    | .exc msg =>
      if 1 ≤ left then
        sendGo f (made + 1) (min (backoff * 2) 60) (backoff :: sleeps) left
      else ((false, "NETWORK_ERROR: " ++ msg), made + 1, sleeps.reverse)

/-- `_send_with_retry(..., max_retries=3)`: backoff starts at 1. -/
def send_with_retry (f : Nat → AttemptOutcome) (maxRetries : Nat) :
    (Bool × String) × Nat × List Nat :=
  sendGo f 0 1 [] maxRetries

/-- The backoff sequence from a given start: each wait is the previous
one doubled and capped at 60. -/
def backoffSeq : Nat → Nat → List Nat
  | _, 0 => []
  | b, n + 1 => b :: backoffSeq (min (b * 2) 60) n

/-! ## `ApprovedEmailSender._move` — terminal moves of the dispatcher -/

/-- The destination filename `_move` builds:
`f"{stem}_{ts}{suffix}"` where `ts` is the timestamp
`datetime.now().strftime("%Y%m%d_%H%M%S")` — the `reason` argument is
used only in the log line. -/
def dispatcher_move_dest_name (srcName ts : String) : String :=
  stemOf srcName ++ "_" ++ ts ++ suffixOf srcName

/-- `_move(src, dest_dir, reason)`: `mkdir` the destination and rename;
errors are logged and swallowed. -/
def dispatcher_move (fs : FS) (src destDir ts : String) : FS :=
  if src ∈ fs.files then
    fs.rename src
      (destDir ++ "/" ++ dispatcher_move_dest_name (baseName src) ts)
  else fs

/-- The per-channel validation of `mkDraft`, stated over an arbitrary
field accumulator. -/
theorem mkDraft_validation (f : FmFields) (b : String) :
    (effectiveAction f = "send_email" →
      ((mkDraft f b).isSome = true
        ↔ (pyFalsy f.toAddr = false ∧ pyFalsy f.subject = false))) ∧
    (effectiveAction f = "send_whatsapp" →
      ((mkDraft f b).isSome = true ↔ pyFalsy f.toAddr = false)) ∧
    (effectiveAction f ∈ socialActions → (mkDraft f b).isSome = true) := by
  have hse : ¬ ("send_email" ∈ socialActions) := by decide
  have hsw : ¬ ("send_whatsapp" ∈ socialActions) := by decide
  refine ⟨?_, ?_, ?_⟩
  · intro hact
    by_cases hto : pyFalsy f.toAddr
    · simp [mkDraft, hact, hse, hto]
    · by_cases hsub : pyFalsy f.subject
      · simp [mkDraft, hact, hse, hto, hsub]
      · simp [mkDraft, hact, hse, hto, hsub]
  · intro hact
    by_cases hto : pyFalsy f.toAddr
    · simp [mkDraft, hact, hsw, hto]
    · simp [mkDraft, hact, hsw, hto]
  · intro hsoc
    simp [mkDraft, hsoc]

/-- **C7.**  Parsing an approved draft requires exactly the per-channel
mandatory fields: an email draft parses successfully iff the scan yields
both a recipient and a subject; a whatsapp draft needs (exactly) a
recipient; a social-post draft always parses (in particular a body
alone suffices); whenever parsing fails — both `parse_draft` and the
`_intelligent_parse` fallback return nothing — the dispatcher moves the
file to `Rejected` with reason `parse_failed` and attempts no send; and
a draft with `{to, subject, body}` front-matter parses back to the same
`to`, `subject` and body. -/
theorem parse_draft_required_fields :
    (∀ content, effectiveAction (draftScan content).1 = "send_email" →
      ((parse_draft content).isSome = true
        ↔ (pyFalsy (draftScan content).1.toAddr = false
            ∧ pyFalsy (draftScan content).1.subject = false))) ∧
    (∀ content, effectiveAction (draftScan content).1 = "send_whatsapp" →
      ((parse_draft content).isSome = true
        ↔ pyFalsy (draftScan content).1.toAddr = false)) ∧
    (∀ content, effectiveAction (draftScan content).1 ∈ socialActions →
      (parse_draft content).isSome = true) ∧
    (∀ content, parse_draft content = none →
      intelligentParse content = none →
      handle_approved_parse content = .rejected "parse_failed") ∧
    (parse_draft "---\nto: a@b.com\nsubject: S\n---\n\nB"
      = some ⟨"a@b.com", "S", "B", none, "send_email", none, none, none,
              none⟩) := by
  refine ⟨?_, ?_, ?_, ?_, by decide⟩
  · intro content hact
    exact (mkDraft_validation (draftScan content).1
      (extractBody (draftFields content).2 (draftScan content).2)).1 hact
  · intro content hact
    exact (mkDraft_validation (draftScan content).1
      (extractBody (draftFields content).2 (draftScan content).2)).2.1 hact
  · intro content hact
    exact (mkDraft_validation (draftScan content).1
      (extractBody (draftFields content).2 (draftScan content).2)).2.2 hact
  · intro content h1 h2
    simp [handle_approved_parse, h1, h2]

/-- Witness for `parse_draft_required_fields`, at concrete drafts of each
channel and one unparsable file. -/
theorem parse_draft_required_fields_witness :
    (parse_draft "---\nto: a@b.com\nsubject: S\n---\nB").isSome = true ∧
    (parse_draft "---\naction: send_whatsapp\nto: whatsapp:+1\n---\nhi"
      ).isSome = true ∧
    (parse_draft "---\naction: post_twitter\n---\njust a body"
      ).isSome = true ∧
    handle_approved_parse "no recognisable fields here"
      = .rejected "parse_failed" :=
  ⟨(parse_draft_required_fields.1 "---\nto: a@b.com\nsubject: S\n---\nB"
      (by decide)).mpr ⟨by decide, by decide⟩,
   (parse_draft_required_fields.2.1
      "---\naction: send_whatsapp\nto: whatsapp:+1\n---\nhi"
      (by decide)).mpr (by decide),
   parse_draft_required_fields.2.2.1
      "---\naction: post_twitter\n---\njust a body" (by decide),
   parse_draft_required_fields.2.2.2.1 "no recognisable fields here"
      (by decide) (by decide)⟩

/-- An always-raising non-HTTP failure is retried to exhaustion, with
the accumulated backoff waits. -/
theorem sendGo_exc (msg : String) :
    ∀ left made b sleeps, 1 ≤ left →
      sendGo (fun _ => .exc msg) made b sleeps left
        = ((false, "NETWORK_ERROR: " ++ msg), made + left,
           sleeps.reverse ++ backoffSeq b (left - 1)) := by
  intro left
  induction left with
  | zero => omega
  | succ l ih =>
    intro made b sleeps _
    cases Nat.eq_zero_or_pos l with
    | inl hl0 =>
      subst hl0
      simp [sendGo, backoffSeq]
    | inr hl =>
      have hstep :
          sendGo (fun _ => .exc msg) made b sleeps (l + 1)
            = sendGo (fun _ => .exc msg) (made + 1) (min (b * 2) 60)
                (b :: sleeps) l := by
        have h1 : 1 ≤ l := hl
        simp only [sendGo, if_pos h1]
      rw [hstep, ih (made + 1) (min (b * 2) 60) (b :: sleeps) hl]
      have hseq : backoffSeq b (l + 1 - 1) = b :: backoffSeq (min (b * 2) 60)
          (l - 1) := by
        have : l + 1 - 1 = (l - 1) + 1 := by omega
        rw [this, backoffSeq]
      rw [hseq]
      have : made + 1 + l = made + (l + 1) := by omega
      rw [this]
      simp

/-- A persistently failing send whose HTTP status is in the transient
set is retried to exhaustion, with the accumulated backoff waits. -/
theorem sendGo_transient (status : Nat) (msg : String)
    (hst : status ∈ retryableStatuses) :
    ∀ left made b sleeps, 1 ≤ left →
      sendGo (fun _ => .httpErr status msg) made b sleeps left
        = ((false, "GMAIL_API_ERROR: " ++ msg), made + left,
           sleeps.reverse ++ backoffSeq b (left - 1)) := by
  intro left
  induction left with
  | zero => omega
  | succ l ih =>
    intro made b sleeps _
    cases Nat.eq_zero_or_pos l with
    | inl hl0 =>
      subst hl0
      simp [sendGo, backoffSeq]
    | inr hl =>
      have hstep :
          sendGo (fun _ => .httpErr status msg) made b sleeps (l + 1)
            = sendGo (fun _ => .httpErr status msg) (made + 1)
                (min (b * 2) 60) (b :: sleeps) l := by
        have hcond : status ∈ retryableStatuses ∧ 1 ≤ l := ⟨hst, hl⟩
        simp only [sendGo, if_pos hcond]
      rw [hstep, ih (made + 1) (min (b * 2) 60) (b :: sleeps) hl]
      have hseq : backoffSeq b (l + 1 - 1)
          = b :: backoffSeq (min (b * 2) 60) (l - 1) := by
        have : l + 1 - 1 = (l - 1) + 1 := by omega
        rw [this, backoffSeq]
      rw [hseq]
      have : made + 1 + l = made + (l + 1) := by omega
      rw [this]
      simp

/-- The doubling-capped backoff law. -/
theorem backoffSeq_pow :
    ∀ n j, backoffSeq (min (2 ^ j) 60) n
      = (List.range n).map (fun i => min (2 ^ (j + i)) 60) := by
  intro n
  induction n with
  | zero => intro j; simp [backoffSeq]
  | succ n ih =>
    intro j
    have hdouble : min (min (2 ^ j) 60 * 2) 60 = min (2 ^ (j + 1)) 60 := by
      rcases le_or_lt (2 ^ j) 60 with h | h
      · rw [min_eq_left h, pow_succ]
      · rw [min_eq_right h.le]
        have h2 : (60 : Nat) ≤ 2 ^ (j + 1) := by
          calc (60 : Nat) ≤ 2 ^ j := h.le
          _ ≤ 2 ^ (j + 1) := Nat.pow_le_pow_right (by omega) (by omega)
        rw [min_eq_right h2]
        decide
    have hfun : ((fun i => min (2 ^ (j + i)) 60) ∘ Nat.succ)
        = (fun i => min (2 ^ (j + 1 + i)) 60) := by
      funext i
      have harith : j + Nat.succ i = j + 1 + i := by omega
      simp [Function.comp, harith]
    rw [backoffSeq, hdouble, ih (j + 1), List.range_succ_eq_map]
    simp [List.map_map, hfun]

/-- **C8, counterexample.**  The claim says a retry occurs only for the
designated transient signatures and every other error fails the send
immediately with no further attempt.  But the generic `except Exception`
branch of `_send_with_retry` also sleeps and retries: a send whose every
attempt raises a non-HTTP error is attempted 3 times (with backoff waits
1 and 2), not once. -/
theorem send_retry_nontransient_retried_cex :
    send_with_retry (fun _ => .exc "connection reset") 3
      = ((false, "NETWORK_ERROR: connection reset"), 3, [1, 2]) ∧
    (3 : Nat) ≠ 1 := by
  constructor
  · decide
  · decide

/-- **C8, amended.**  Channel transmission retries use exponential
backoff starting at 1 time unit and doubling up to the 60-unit cap, and
a retry occurs when the failure is an HTTP error with a designated
transient status (429/500/502/503/504) *or any non-HTTP exception*;
only HTTP errors with a non-transient status fail the send immediately
with no further attempt. -/
theorem send_retry_policy_amended :
    (∀ f status msg mr, f 0 = .httpErr status msg →
      status ∉ retryableStatuses → 1 ≤ mr →
      send_with_retry f mr
        = ((false, "GMAIL_API_ERROR: " ++ msg), 1, [])) ∧
    (∀ f status msg msgId mr, f 0 = .httpErr status msg →
      status ∈ retryableStatuses → f 1 = .ok msgId → 2 ≤ mr →
      send_with_retry f mr = ((true, msgId), 2, [1])) ∧
    (∀ status msg mr, status ∈ retryableStatuses → 1 ≤ mr →
      send_with_retry (fun _ => .httpErr status msg) mr
        = ((false, "GMAIL_API_ERROR: " ++ msg), mr, backoffSeq 1 (mr - 1))) ∧
    (∀ f msgId mr, f 0 = .ok msgId → 1 ≤ mr →
      send_with_retry f mr = ((true, msgId), 1, [])) ∧
    (∀ msg mr, 1 ≤ mr →
      send_with_retry (fun _ => .exc msg) mr
        = ((false, "NETWORK_ERROR: " ++ msg), mr, backoffSeq 1 (mr - 1))) ∧
    (∀ n, backoffSeq 1 n = (List.range n).map (fun i => min (2 ^ i) 60)) := by
  refine ⟨?_, ?_, ?_, ?_, ?_, ?_⟩
  · intro f status msg mr hf hst hmr
    cases mr with
    | zero => omega
    | succ m =>
      have hcond : ¬ (status ∈ retryableStatuses ∧ 1 ≤ m) := by
        intro h
        exact hst h.1
      simp [send_with_retry, sendGo, hf, hcond]
  · intro f status msg msgId mr hf0 hst hf1 hmr
    obtain ⟨m, rfl⟩ : ∃ m, mr = m + 2 := ⟨mr - 2, by omega⟩
    have hcond : status ∈ retryableStatuses ∧ 1 ≤ m + 1 := ⟨hst, by omega⟩
    simp [send_with_retry, sendGo, hf0, hf1, hcond]
  · intro status msg mr hst hmr
    have h := sendGo_transient status msg hst mr 0 1 [] hmr
    simpa [send_with_retry] using h
  · intro f msgId mr hf hmr
    cases mr with
    | zero => omega
    | succ m => simp [send_with_retry, sendGo, hf]
  · intro msg mr hmr
    have h := sendGo_exc msg mr 0 1 [] hmr
    simpa [send_with_retry] using h
  · intro n
    have h := backoffSeq_pow n 0
    simpa using h

/-- Witness for `send_retry_policy_amended`: a 404 fails immediately; a
503 on the first attempt *is* retried (after a 1-unit wait) and the
second attempt succeeds; a persistent 503 is retried to all 3 attempts
with waits 1 and 2; a success succeeds on attempt 1; a persistent
network error is retried to all 3 attempts with waits 1 and 2. -/
theorem send_retry_policy_amended_witness :
    send_with_retry (fun _ => .httpErr 404 "not found") 3
      = ((false, "GMAIL_API_ERROR: not found"), 1, []) ∧
    send_with_retry
        (fun k => if k = 0 then .httpErr 503 "unavailable" else .ok "m2") 3
      = ((true, "m2"), 2, [1]) ∧
    send_with_retry (fun _ => .httpErr 503 "unavailable") 3
      = ((false, "GMAIL_API_ERROR: unavailable"), 3, backoffSeq 1 2) ∧
    send_with_retry (fun _ => .ok "id1") 3 = ((true, "id1"), 1, []) ∧
    send_with_retry (fun _ => .exc "down") 3
      = ((false, "NETWORK_ERROR: down"), 3, backoffSeq 1 2) :=
  ⟨send_retry_policy_amended.1 (fun _ => .httpErr 404 "not found") 404
      "not found" 3 rfl (by decide) (by decide),
   send_retry_policy_amended.2.1
      (fun k => if k = 0 then .httpErr 503 "unavailable" else .ok "m2")
      503 "unavailable" "m2" 3 (by decide) (by decide) (by decide)
      (by decide),
   send_retry_policy_amended.2.2.1 503 "unavailable" 3 (by decide)
      (by decide),
   send_retry_policy_amended.2.2.2.1 (fun _ => .ok "id1") "id1" 3 rfl
      (by decide),
   send_retry_policy_amended.2.2.2.2.1 "down" 3 (by decide)⟩

/-- **C9.**  The dispatcher's `_move` promises in its own docstring to
append the rejection `reason` to the destination name, and the spec says
a human can read the reason off the filename; the code instead appends
the current *timestamp* — the `reason` argument appears only in the log
line.  Moving `draft.md` to `Rejected/` with reason `parse_failed` at
timestamp `20260101_000000` yields `draft_20260101_000000.md`, which
does not contain the reason. -/
theorem dispatcher_move_timestamp_not_reason :
    dispatcher_move_dest_name "draft.md" "20260101_000000"
      = "draft_20260101_000000.md" ∧
    strContains "draft_20260101_000000.md" "parse_failed" = false ∧
    (dispatcher_move ⟨["Approved/draft.md"], []⟩ "Approved/draft.md"
        "Rejected" "20260101_000000").files
      = ["Rejected/draft_20260101_000000.md"] := by
  refine ⟨by decide, by decide, by decide⟩

end AIEmployee

